import Mathlib

/-!
Shallow embedding of the cquery indexing pipeline (src/import_pipeline.cc)
and serializer (src/serializer.cc), together with proofs that settle the
frozen claims about this code.  Components whose implementation is not in
the repository snapshot (timestamp manager, import manager, cache manager,
the rapidjson / msgpack visitors) are modelled from the specification, as
marked in their doc comments.
-/

/-- Association-list lookup, modelling lookups in the C++ std (unordered)
maps used by `IdCache` and the managers. -/
def lookupAssoc {α β : Type} [DecidableEq α] (k : α) : List (α × β) → Option β
  | [] => none
  | (a, b) :: rest => if a = k then some b else lookupAssoc k rest

/-- Association-list erase, modelling `map.erase(k)`. -/
def eraseKey {α β : Type} [DecidableEq α] (k : α) : List (α × β) → List (α × β)
  | [] => []
  | (a, b) :: rest => if a = k then rest else (a, b) :: eraseKey k rest

/-- Association-list overwrite-or-append, modelling `map[k] = v`. -/
def insertAssoc {α β : Type} [DecidableEq α] (k : α) (v : β) :
    List (α × β) → List (α × β)
  | [] => [(k, v)]
  | (a, b) :: rest => if a = k then (k, v) :: rest else (a, b) :: insertAssoc k v rest

/-- One include record of an `IndexFile`: `(line, resolved_path)`
(serializer.cc, `Reflect(..., IndexInclude&)`). -/
structure IndexInclude where
  line : Int
  resolved_path : String
deriving DecidableEq, Inhabited

/-- Modelled from the spec: a type symbol record.  The source record
(indexer.h, not in the snapshot) carries many more definition fields; the
spec describes them only as "symbol records" keyed by a USR and a dense
local id, which is what the pipeline and the id-cache rebuild inspect.
`short_name` is kept because `ReflectMemberStart` in serializer.cc rewrites
it for the empty-USR type. -/
structure IndexType where
  id : Nat
  usr : String
  short_name : String
  detailed_name : String
deriving DecidableEq, Inhabited

/-- Modelled from the spec: a function symbol record (id, USR and a
representative payload field). -/
structure IndexFunc where
  id : Nat
  usr : String
  short_name : String
deriving DecidableEq, Inhabited

/-- Modelled from the spec: a variable symbol record (id, USR and a
representative payload field). -/
structure IndexVar where
  id : Nat
  usr : String
  short_name : String
deriving DecidableEq, Inhabited

/-- Modelled from the spec: a preprocessor-skipped source range, carried
opaquely by the serializer. -/
structure SkippedRange where
  start_line : Int
  start_col : Int
  end_line : Int
  end_col : Int
deriving DecidableEq, Inhabited

/-- The bidirectional id/USR maps of an `IndexFile` (spec section 3). -/
structure IdCache where
  primary_file : String
  type_id_to_usr : List (Nat × String)
  usr_to_type_id : List (String × Nat)
  func_id_to_usr : List (Nat × String)
  usr_to_func_id : List (String × Nat)
  var_id_to_usr : List (Nat × String)
  usr_to_var_id : List (String × Nat)
deriving DecidableEq, Inhabited

/-- The serialized semantic index of one translation unit, with exactly the
fields walked by `Reflect(TVisitor&, IndexFile&)` in serializer.cc plus the
non-serialized `path` and `id_cache` restored by `Deserialize`.
`language` is the numeric value of the source `LanguageId` enum. -/
structure IndexFile where
  path : String
  version : Int
  last_modification_time : Int
  language : Int
  import_file : String
  args : List String
  includes : List IndexInclude
  dependencies : List String
  skipped_by_preprocessor : List SkippedRange
  types : List IndexType
  funcs : List IndexFunc
  vars : List IndexVar
  id_cache : IdCache
deriving DecidableEq, Inhabited

/-- Modelled from the spec: the current format version constant
`IndexFile::kCurrentVersion` (indexer.h is not in the snapshot); its exact
numeric value is immaterial to the claims. -/
def IndexFile.kCurrentVersion : Int := 11

/-- Modelled from the spec: the `IndexFile(path)` constructor - fields
default-initialized, `id_cache.primary_file` set to the path. -/
def makeIndexFile (path : String) : IndexFile :=
  { path := path
    version := 0
    last_modification_time := 0
    language := 0
    import_file := ""
    args := []
    includes := []
    dependencies := []
    skipped_by_preprocessor := []
    types := []
    funcs := []
    vars := []
    id_cache := ⟨path, [], [], [], [], [], []⟩ }

/-- `GetBaseName` from serializer.cc: the substring after the last slash,
or the whole path when there is no slash or the slash is last. -/
def GetBaseName (path : String) : String :=
  let cs := path.toList
  let suffix := (cs.reverse.takeWhile (fun c => c ≠ '/')).reverse
  if suffix.length = 0 then path
  else if suffix.length = cs.length then path
  else String.mk suffix

/-- Test-output-mode projection of an include record
(serializer.cc, `Reflect(Writer&, IndexInclude&)`): the resolved path is
replaced by its basename, with a `&` added when the original path does not
already start with one. -/
def testModeInclude (value : IndexInclude) : IndexInclude :=
  let basename := GetBaseName value.resolved_path
  if value.resolved_path.startsWith "&" then ⟨value.line, basename⟩
  else ⟨value.line, "&" ++ basename⟩

/-- The two interchangeable serialization formats (serializer.h). -/
inductive SerializeFormat where
  | Json
  | MessagePack
deriving DecidableEq, Inhabited

/-- The abstract serialized payload: the field list walked by the
reflective serializer.  Fields that non-test mode writes but test mode
drops are `Option`s (`none` = field absent from the blob); the textual
JSON / binary msgpack encodings themselves are external libraries and are
abstracted as this value. -/
structure IndexPayload where
  version : Option Int
  last_modification_time : Option Int
  language : Option Int
  import_file : Option String
  args : Option (List String)
  includes : List IndexInclude
  dependencies : Option (List String)
  skipped_by_preprocessor : List SkippedRange
  types : List IndexType
  funcs : List IndexFunc
  vars : List IndexVar
deriving DecidableEq, Inhabited

/-- The rewrite applied by `ReflectMemberStart` to the type with the given
local id: its short name becomes `<fundamental>`. -/
def renameFundamentalType (tid : Nat) (t : IndexType) : IndexType :=
  if t.id = tid then { t with short_name := "<fundamental>" } else t

/-- `ReflectMemberStart(Writer&, IndexFile&)` from serializer.cc: rewrites
the short name of the empty-USR type (when present) and stamps
`version := kCurrentVersion` on the file being serialized. -/
def ReflectMemberStartWriter (f : IndexFile) : IndexFile :=
  let f₁ :=
    match lookupAssoc "" f.id_cache.usr_to_type_id with
    | some tid => { f with types := f.types.map (renameFundamentalType tid) }
    | none => f
  { f₁ with version := IndexFile.kCurrentVersion }

/-- The write direction of `Reflect(TVisitor&, IndexFile&)`: which fields
are put into the payload, and the test-mode projection of includes. -/
def writeIndexFilePayload (testOutputMode : Bool) (f : IndexFile) : IndexPayload :=
  { version := if testOutputMode then none else some f.version
    last_modification_time :=
      if testOutputMode then none else some f.last_modification_time
    language := if testOutputMode then none else some f.language
    import_file := if testOutputMode then none else some f.import_file
    args := if testOutputMode then none else some f.args
    includes := if testOutputMode then f.includes.map testModeInclude else f.includes
    dependencies := if testOutputMode then none else some f.dependencies
    skipped_by_preprocessor := f.skipped_by_preprocessor
    types := f.types
    funcs := f.funcs
    vars := f.vars }

/-- `Serialize` from serializer.cc.  It returns both the mutated argument
(C++ mutates `file` in place via `ReflectMemberStart`) and the payload.
The `format` parameter selects only the external byte encoding; both
formats walk the same reflective field list. -/
def Serialize (format : SerializeFormat) (testOutputMode : Bool)
    (file : IndexFile) : IndexFile × IndexPayload :=
  let stamped := ReflectMemberStartWriter file
  match format with
  | SerializeFormat.Json => (stamped, writeIndexFilePayload testOutputMode stamped)
  | SerializeFormat.MessagePack =>
      (stamped, writeIndexFilePayload testOutputMode stamped)

/-- The read direction of `Reflect(TVisitor&, IndexFile&)` applied to a
fresh `IndexFile(path)`: fields dropped in test mode are not read; a field
absent from the blob leaves the default value. -/
def readIndexFilePayload (testOutputMode : Bool) (path : String)
    (v : IndexPayload) : IndexFile :=
  let f0 := makeIndexFile path
  { f0 with
    version := if testOutputMode then f0.version else v.version.getD f0.version
    last_modification_time :=
      if testOutputMode then f0.last_modification_time
      else v.last_modification_time.getD f0.last_modification_time
    language := if testOutputMode then f0.language else v.language.getD f0.language
    import_file :=
      if testOutputMode then f0.import_file else v.import_file.getD f0.import_file
    args := if testOutputMode then f0.args else v.args.getD f0.args
    includes := v.includes
    dependencies :=
      if testOutputMode then f0.dependencies
      else v.dependencies.getD f0.dependencies
    skipped_by_preprocessor := v.skipped_by_preprocessor
    types := v.types
    funcs := v.funcs
    vars := v.vars }

/-- One step of the type-map rebuild: `type_id_to_usr[id] = usr` and
`usr_to_type_id[usr] = id`. -/
def idCacheAddType (c : IdCache) (t : IndexType) : IdCache :=
  { c with
    type_id_to_usr := insertAssoc t.id t.usr c.type_id_to_usr
    usr_to_type_id := insertAssoc t.usr t.id c.usr_to_type_id }

/-- One step of the func-map rebuild: `func_id_to_usr[id] = usr` and
`usr_to_func_id[usr] = id`. -/
def idCacheAddFunc (c : IdCache) (fn : IndexFunc) : IdCache :=
  { c with
    func_id_to_usr := insertAssoc fn.id fn.usr c.func_id_to_usr
    usr_to_func_id := insertAssoc fn.usr fn.id c.usr_to_func_id }

/-- One step of the var-map rebuild: `var_id_to_usr[id] = usr` and
`usr_to_var_id[usr] = id`. -/
def idCacheAddVar (c : IdCache) (vr : IndexVar) : IdCache :=
  { c with
    var_id_to_usr := insertAssoc vr.id vr.usr c.var_id_to_usr
    usr_to_var_id := insertAssoc vr.usr vr.id c.usr_to_var_id }

/-- The id-cache rebuild at the end of `Deserialize` (serializer.cc lines
310-323): bidirectional maps folded from the deserialized types, funcs and
vars, with `primary_file` set to the file's path. -/
def buildIdCache (path : String) (types : List IndexType) (funcs : List IndexFunc)
    (vars : List IndexVar) : IdCache :=
  let c0 : IdCache := ⟨path, [], [], [], [], [], []⟩
  vars.foldl idCacheAddVar (funcs.foldl idCacheAddFunc (types.foldl idCacheAddType c0))

/-- The "restore non-serialized state" block of `Deserialize`: set the
path and rebuild the id cache from the symbol lists. -/
def restoreIdCache (f : IndexFile) : IndexFile :=
  { f with id_cache := buildIdCache f.path f.types f.funcs f.vars }

/-- Modelled from the spec: msgpack unpacking is positional, so a blob
missing any of the fields the reader walks raises `unpack_error`; in test
mode those fields are not walked at all. -/
def msgpackAllFieldsPresent (testOutputMode : Bool) (v : IndexPayload) : Bool :=
  testOutputMode ||
    (v.version.isSome && v.last_modification_time.isSome && v.language.isSome &&
      v.import_file.isSome && v.args.isSome && v.dependencies.isSome)

/-- `Deserialize` from serializer.cc.  `serialized = none` models a blob
that fails to parse (JSON parse error, empty or corrupt msgpack).  The
JSON branch checks the embedded `version` member against
`expected_version` before reflecting; the msgpack branch reflects first
and then rejects when `file->version != expected_version` (an
`optional<int>` comparison, so an absent expectation also rejects). -/
def Deserialize (format : SerializeFormat) (testOutputMode : Bool) (path : String)
    (serialized : Option IndexPayload) (expected_version : Option Int) :
    Option IndexFile :=
  match format with
  | SerializeFormat.Json =>
    match serialized with
    | none => none
    | some v =>
      match expected_version with
      | some e =>
        match v.version with
        | none => none
        | some actual =>
          if actual ≠ e then none
          else
            some (restoreIdCache
              { readIndexFilePayload testOutputMode path v with path := path })
      | none =>
          some (restoreIdCache
            { readIndexFilePayload testOutputMode path v with path := path })
  | SerializeFormat.MessagePack =>
    match serialized with
    | none => none
    | some v =>
      if msgpackAllFieldsPresent testOutputMode v then
        let file := readIndexFilePayload testOutputMode path v
        if some file.version ≠ expected_version then none
        else some (restoreIdCache { file with path := path })
      else none

/-- One `(path, contents)` pair handed to the indexer (file_contents.h). -/
structure FileContents where
  path : String
  content : String
deriving DecidableEq, Inhabited

/-- A `do_id_map` queue item (`Index_DoIdMap` in queue_manager.h): the
produced index, an optional previous index, the `load_previous` retry
flag, and the interactivity / write-back flags.  The performance record is
omitted: the pipeline only threads it through. -/
structure Index_DoIdMap where
  current : IndexFile
  previous : Option IndexFile
  load_previous : Bool
  is_interactive : Bool
  write_to_disk : Bool
deriving DecidableEq, Inhabited

/-- The result of the `file_needs_parse` check in `DoParseFile`. -/
inductive FileParseQuery where
  | NeedsParse
  | DoesNotNeedParse
  | NoSuchFile
deriving DecidableEq, Inhabited

/-- The mutable state and external environment threaded through the parse
stage.  `mtimes` is `GetLastModificationTime` (platform layer),
`readContent` is `ReadContent`, `diskCache` is the persisted blob store
already deserialized, `loadedCaches` the cache manager's resident map,
`timestamps` the timestamp manager's memo, `usedFiles` the file-consumer
claim set, `importedDeps` the import manager's dependency gate, and
`indexerIndex` the external semantic indexer. -/
structure World where
  mtimes : String → Option Int
  readContent : String → Option String
  diskCache : String → Option IndexFile
  loadedCaches : List (String × IndexFile)
  timestamps : List (String × Int)
  usedFiles : List String
  importedDeps : List String
  indexerIndex : String → List String → List FileContents → List IndexFile

/-- Modelled from the spec: `ICacheManager::TryLoad` - return the resident
index when present, otherwise load the persisted one into the resident
map; nullable, non-owning. -/
def CacheTryLoad (w : World) (path : String) : Option IndexFile × World :=
  match lookupAssoc path w.loadedCaches with
  | some f => (some f, w)
  | none =>
    match w.diskCache path with
    | some f => (some f, { w with loadedCaches := (path, f) :: w.loadedCaches })
    | none => (none, w)

/-- Modelled from the spec: `ICacheManager::TryTakeOrLoad` - remove from
the resident map when present, otherwise load from disk; nullable. -/
def CacheTryTakeOrLoad (w : World) (path : String) : Option IndexFile × World :=
  match lookupAssoc path w.loadedCaches with
  | some f => (some f, { w with loadedCaches := eraseKey path w.loadedCaches })
  | none => (w.diskCache path, w)

/-- Modelled from the spec: `ICacheManager::TakeOrLoad` - same as
`TryTakeOrLoad` but asserted to succeed; the assertion failure is modelled
by a default file. -/
def CacheTakeOrLoad (w : World) (path : String) : IndexFile × World :=
  match CacheTryTakeOrLoad w path with
  | (some f, w₁) => (f, w₁)
  | (none, w₁) => (default, w₁)

/-- Modelled from the spec: `TimestampManager::GetLastCachedModificationTime`
- the memoized value when present, otherwise the persisted index's
`last_modification_time` (via the cache manager), memoized. -/
def GetLastCachedModificationTime (w : World) (path : String) :
    Option Int × World :=
  match lookupAssoc path w.timestamps with
  | some t => (some t, w)
  | none =>
    match CacheTryLoad w path with
    | (some f, w₁) =>
        (some f.last_modification_time,
          { w₁ with timestamps := (path, f.last_modification_time) :: w₁.timestamps })
    | (none, w₁) => (none, w₁)

/-- Modelled from the spec: `TimestampManager::UpdateCachedModificationTime`. -/
def UpdateCachedModificationTime (w : World) (path : String) (t : Int) : World :=
  { w with timestamps := insertAssoc path t w.timestamps }

/-- Modelled from the spec: `ImportManager::TryMarkDependencyImported` -
first caller true, later callers false. -/
def TryMarkDependencyImported (w : World) (path : String) : Bool × World :=
  if path ∈ w.importedDeps then (false, w)
  else (true, { w with importedDeps := path :: w.importedDeps })

/-- Modelled from the spec: `FileConsumerSharedState::Mark` - insert,
returning true iff newly inserted. -/
def FileConsumerMark (w : World) (path : String) : Bool × World :=
  if path ∈ w.usedFiles then (false, w)
  else (true, { w with usedFiles := path :: w.usedFiles })

/-- Modelled from the spec: `FileConsumerSharedState::Reset` - clear the
claim for the path. -/
def FileConsumerReset (w : World) (path : String) : World :=
  { w with usedFiles := w.usedFiles.erase path }

/-- The `file_needs_parse` lambda of `DoParseFile`
(import_pipeline.cc lines 111-137): the dependency short-circuit through
the import manager, then the modification-time / cached-time comparison,
resetting the file-consumer claim when a reparse is needed. -/
def file_needs_parse (is_interactive : Bool) (w : World) (path : String)
    (is_dependency : Bool) : FileParseQuery × World :=
  let gate :=
    if !is_interactive && is_dependency then
      let (first, w₁) := TryMarkDependencyImported w path
      (some first, w₁)
    else (none, w)
  match gate with
  | (some false, w₁) => (FileParseQuery.DoesNotNeedParse, w₁)
  | (_, w₁) =>
    match w₁.mtimes path with
    | none => (FileParseQuery.NoSuchFile, w₁)
    | some modification_timestamp =>
      let (last_cached_modification, w₂) := GetLastCachedModificationTime w₁ path
      if last_cached_modification ≠ some modification_timestamp then
        (FileParseQuery.NeedsParse, FileConsumerReset w₂ path)
      else (FileParseQuery.DoesNotNeedParse, w₂)

/-- The dependency loop of `DoParseFile` (lines 152-164): run
`file_needs_parse` on every dependency, or-ing any non-`DoesNotNeedParse`
result into `needs_reparse` without breaking out of the loop. -/
def checkDependencies (is_interactive : Bool) :
    List String → World → Bool → Bool × World
  | [], w, needs => (needs, w)
  | d :: ds, w, needs =>
    let (r, w₁) := file_needs_parse is_interactive w d true
    checkDependencies is_interactive ds w₁
      (needs || decide (r ≠ FileParseQuery.DoesNotNeedParse))

/-- The dependency-emission loop of the cache-hit branch of `DoParseFile`
(lines 174-196): for each dependency in order, when `Mark` newly claims it
and `TryTakeOrLoad` yields an index, append a `write_to_disk = false`
item. -/
def loadDependencies (is_interactive : Bool) :
    List String → World → List Index_DoIdMap → List Index_DoIdMap × World
  | [], w, acc => (acc, w)
  | d :: ds, w, acc =>
    let (newly, w₁) := FileConsumerMark w d
    if newly then
      match CacheTryTakeOrLoad w₁ d with
      | (some dependency_index, w₂) =>
          loadDependencies is_interactive ds w₂
            (acc ++ [⟨dependency_index, none, false, is_interactive, false⟩])
      | (none, w₂) => loadDependencies is_interactive ds w₂ acc
    else loadDependencies is_interactive ds w₁ acc

/-- The file-contents preload of the parse branch (lines 214-235): start
from the caller-supplied contents, append the readable contents of every
resident cache, and finally read the primary path if it was not already
covered; a failed primary read aborts (`none`). -/
def buildFileContents (w : World) (contents : FileContents) (path : String) :
    Option (List FileContents) :=
  let start := (decide (contents.path = path), [contents])
  let folded := w.loadedCaches.foldl
    (fun (acc : Bool × List FileContents) entry =>
      match w.readContent entry.2.path with
      | none => acc
      | some index_content =>
          (acc.1 || decide (entry.2.path = path),
            acc.2 ++ [⟨entry.2.path, index_content⟩]))
    start
  if folded.1 then some folded.2
  else
    match w.readContent path with
    | none => none
    | some content => some (folded.2 ++ [⟨path, content⟩])

/-- The unconditional parse branch of `DoParseFile` (lines 201-256):
preload file contents, invoke the indexer, and emit one
`write_to_disk = true` item per produced index.  The third component of
the result records whether the indexer was invoked. -/
def doParseUnconditional (w : World) (is_interactive : Bool) (path : String)
    (args : List String) (contents : FileContents) :
    List Index_DoIdMap × World × Bool :=
  match buildFileContents w contents path with
  | none => ([], w, false)
  | some file_contents =>
    let indexes := w.indexerIndex path args file_contents
    (indexes.map (fun new_index => ⟨new_index, none, false, is_interactive, true⟩),
      w, true)

/-- `DoParseFile` from import_pipeline.cc (lines 86-257): probe the cache,
run the timestamp gate on the path and all recorded dependencies, load
from cache when nothing changed, and otherwise parse. -/
def DoParseFile (w : World) (is_interactive : Bool) (path : String)
    (args : List String) (contents : FileContents) :
    List Index_DoIdMap × World × Bool :=
  match CacheTryLoad w path with
  | (none, w₁) => doParseUnconditional w₁ is_interactive path args contents
  | (some previous_index, w₁) =>
    let (path_state, w₂) := file_needs_parse is_interactive w₁ path false
    if path_state = FileParseQuery.NoSuchFile then ([], w₂, false)
    else
      let needs₀ := is_interactive || decide (path_state = FileParseQuery.NeedsParse)
      let (needs_reparse, w₃) :=
        checkDependencies is_interactive previous_index.dependencies w₂ needs₀
      if needs_reparse then doParseUnconditional w₃ is_interactive path args contents
      else
        let (idx, w₄) := CacheTakeOrLoad w₃ path
        let (items, w₅) := loadDependencies is_interactive
          previous_index.dependencies w₄ [⟨idx, none, false, is_interactive, false⟩]
        (items, w₅, false)

/-- `ParseFile` from import_pipeline.cc (lines 259-280): redirect the
request to the cached index's `import_file` when a cached index exists,
then run `DoParseFile` on that translation-unit path. -/
def ParseFile (w : World) (is_interactive : Bool) (filename : String)
    (args : List String) (contents : String) :
    List Index_DoIdMap × World × Bool :=
  let file_contents : FileContents := ⟨filename, contents⟩
  let (entry_cache, w₁) := CacheTryLoad w filename
  let tu_path :=
    match entry_cache with
    | some c => c.import_file
    | none => filename
  DoParseFile w₁ is_interactive tu_path args file_contents

/-- An `on_id_mapped` queue item (`Index_OnIdMapped`): the current and
optional previous index files; the per-database `IdMap` built alongside
each file is determined by the database and the file's id cache and is
kept abstract. -/
structure Index_OnIdMapped where
  current : IndexFile
  previous : Option IndexFile
  is_interactive : Bool
  write_to_disk : Bool
deriving DecidableEq, Inhabited

/-- Modelled from the spec: `ImportManager::StartQueryDbImport` over the
set of paths whose query-db import is in flight - reject when already in
flight, otherwise record and accept. -/
def StartQueryDbImport (querydb_processing : List String) (path : String) :
    Bool × List String :=
  if path ∈ querydb_processing then (false, querydb_processing)
  else (true, path :: querydb_processing)

/-- Modelled from the spec: `ImportManager::DoneQueryDbImport` - release
the in-flight reservation for the path. -/
def DoneQueryDbImport (querydb_processing : List String) (path : String) :
    List String :=
  querydb_processing.erase path

/-- State visible to one iteration of the `do_id_map` drain loop of
`QueryDb_ImportMain` (import_pipeline.cc lines 526-575): the two output
queues, the import manager's in-flight set, the set of case-folded paths
present in `db.usr_to_file`, and a ghost log of every
`StartQueryDbImport` invocation. -/
structure QDbState where
  loadPreviousIndexQueue : List Index_DoIdMap
  onIdMappedQueue : List Index_OnIdMapped
  querydbInFlight : List String
  usrToFile : List String
  startCalls : List String
deriving DecidableEq, Inhabited

/-- One iteration of the `do_id_map` drain loop of `QueryDb_ImportMain`
on a dequeued item: re-route to `load_previous_index` when the item has no
previous state, has not retried yet, and the database already knows the
(case-folded) path; otherwise reserve the query-db import, dropping the
item when the reservation fails, and enqueue the id-mapped response when
it succeeds.  `fold` is `LowerPathIfCaseInsensitive` (platform layer). -/
def processDoIdMap (fold : String → String) (st : QDbState)
    (request : Index_DoIdMap) : QDbState :=
  if !request.load_previous && request.previous = none &&
      fold request.current.path ∈ st.usrToFile then
    { st with
      loadPreviousIndexQueue :=
        st.loadPreviousIndexQueue ++ [{ request with load_previous := true }] }
  else
    let st₁ := { st with startCalls := st.startCalls ++ [request.current.path] }
    let (ok, mgr) := StartQueryDbImport st₁.querydbInFlight request.current.path
    let st₂ := { st₁ with querydbInFlight := mgr }
    if ok then
      { st₂ with
        onIdMappedQueue := st₂.onIdMappedQueue ++
          [⟨request.current, request.previous, request.is_interactive,
            request.write_to_disk⟩] }
    else st₂

/-- An import-manager query-db operation, for stating trace invariants
over arbitrary interleavings (the manager is internally synchronized, so
a concurrent history is some sequence of these operations). -/
inductive ImportOp where
  | start (path : String)
  | done (path : String)

/-- Run a sequence of query-db import-manager operations from a given
in-flight set. -/
def runImports : List ImportOp → List String → List String
  | [], s => s
  | ImportOp.start p :: ops, s => runImports ops (StartQueryDbImport s p).2
  | ImportOp.done p :: ops, s => runImports ops (DoneQueryDbImport s p)

/-- Modelled from the spec: an `IndexUpdate` as the apply stage inspects
it - the list of paths mentioned in `files_def_update` (the update's
symbol payload is opaque to the import gate). -/
structure IndexUpdate where
  files_def_update : List String
deriving DecidableEq, Inhabited

/-- Observable events of the apply stage, for stating ordering between
`ApplyIndexUpdate` and the `DoneQueryDbImport` calls. -/
inductive QDbEvent where
  | applyUpdate (u : IndexUpdate)
  | done (path : String)
deriving DecidableEq

/-- State of the apply stage: the updates applied to the query database so
far and the import manager's in-flight set. -/
structure ApplyState where
  appliedUpdates : List IndexUpdate
  querydbInFlight : List String
deriving DecidableEq, Inhabited

/-- The body of the `on_indexed` drain loop of `QueryDb_ImportMain`
(import_pipeline.cc lines 577-632) for one dequeued update: apply the
update to the query database, then call `DoneQueryDbImport` once per file
mentioned in `files_def_update`.  The working-file content refresh and
semantic-highlight recomputation touch neither modelled component and are
external sinks.  The returned event list records the order of the apply
and the releases. -/
def QueryDb_ApplyOnIndexed (st : ApplyState) (u : IndexUpdate) :
    ApplyState × List QDbEvent :=
  let st₁ := { st with appliedUpdates := st.appliedUpdates ++ [u] }
  let folded := u.files_def_update.foldl
    (fun (acc : List String × List QDbEvent) p =>
      (DoneQueryDbImport acc.1 p, acc.2 ++ [QDbEvent.done p]))
    (st₁.querydbInFlight, ([QDbEvent.applyUpdate u] : List QDbEvent))
  ({ st₁ with querydbInFlight := folded.1 }, folded.2)

/-- The six counters carried by a progress message (`Out_Progress`):
sizes of the five pipeline queues; `activeThreads` is read from the
status record by `EmitProgress` itself. -/
structure QueueSizes where
  indexRequestCount : Nat
  doIdMapCount : Nat
  loadPreviousIndexCount : Nat
  onIdMappedCount : Nat
  onIndexedCount : Nat
deriving DecidableEq, Inhabited

/-- `ImportPipelineStatus` (constructed with both fields zero,
import_pipeline.cc lines 420-421). -/
structure ImportPipelineStatus where
  num_active_threads : Int
  next_progress_output : Int
deriving DecidableEq, Inhabited

/-- The `all_zero` test of `EmitProgress` (lines 65-69): every queue size
and the active-thread count are zero. -/
def progressAllZero (q : QueueSizes) (activeThreads : Int) : Bool :=
  decide (q.indexRequestCount = 0) && decide (q.doIdMapCount = 0) &&
    decide (q.loadPreviousIndexCount = 0) && decide (q.onIdMappedCount = 0) &&
    decide (q.onIndexedCount = 0) && decide (activeThreads = 0)

/-- `ActiveThread::EmitProgress` (import_pipeline.cc lines 52-78) as a
function of the report frequency, the current wall-clock millisecond, the
queue sizes and the status record: when the frequency is non-zero the
update is skipped unless every counter is zero and the throttle time has
passed, in which case `next_progress_output` advances; the returned flag
says whether the progress message was written. -/
def EmitProgress (progressReportFrequencyMs : Int) (now : Int) (q : QueueSizes)
    (st : ImportPipelineStatus) : ImportPipelineStatus × Bool :=
  if progressReportFrequencyMs ≠ 0 then
    let all_zero := progressAllZero q st.num_active_threads
    if !all_zero || decide (now < st.next_progress_output) then (st, false)
    else ({ st with next_progress_output := now + progressReportFrequencyMs }, true)
  else (st, true)

/-- The `ActiveThread` constructor (lines 36-42): increment the
active-thread count unless progress reporting is disabled
(`progressReportFrequencyMs < 0`). -/
def activeThreadEnter (progressReportFrequencyMs : Int)
    (st : ImportPipelineStatus) : ImportPipelineStatus :=
  if progressReportFrequencyMs < 0 then st
  else { st with num_active_threads := st.num_active_threads + 1 }

/-- The `ActiveThread` destructor (lines 43-49): unless reporting is
disabled, decrement the active-thread count and run `EmitProgress`. -/
def activeThreadExit (progressReportFrequencyMs : Int) (now : Int)
    (q : QueueSizes) (st : ImportPipelineStatus) : ImportPipelineStatus × Bool :=
  if progressReportFrequencyMs < 0 then (st, false)
  else EmitProgress progressReportFrequencyMs now q
    { st with num_active_threads := st.num_active_threads - 1 }

theorem EmitProgress_num_active_threads (freq now : Int) (q : QueueSizes)
    (st : ImportPipelineStatus) :
    ((EmitProgress freq now q st).1).num_active_threads = st.num_active_threads := by
  unfold EmitProgress
  by_cases h : freq ≠ 0 <;> simp [h] <;> split <;> rfl

/-- C10: `Serialize` mutates its argument by stamping
`version := IndexFile::kCurrentVersion` before walking the fields, so (in
non-test mode) every serialized payload carries the current format
version, regardless of the version the file held before the call. -/
theorem claim_C10 (format : SerializeFormat) (testOutputMode : Bool)
    (f : IndexFile) :
    (Serialize format testOutputMode f).1.version = IndexFile.kCurrentVersion ∧
    (Serialize format false f).2.version = some IndexFile.kCurrentVersion := by
  cases format <;>
    cases h : lookupAssoc "" f.id_cache.usr_to_type_id <;>
      simp [Serialize, ReflectMemberStartWriter, writeIndexFilePayload, h]

/-- C6: for either serialization format (in production, non-test mode), a
blob that fails to parse deserializes to absent, and when an expected
version is supplied, an embedded version that is missing or differs from
it makes `Deserialize` return absent. -/
theorem claim_C6 (format : SerializeFormat) (path : String) (v : IndexPayload)
    (e : Int) :
    Deserialize format false path none (some e) = none ∧
    (v.version = none → Deserialize format false path (some v) (some e) = none) ∧
    (∀ a, v.version = some a → a ≠ e →
      Deserialize format false path (some v) (some e) = none) := by
  cases format with
  | Json =>
    refine ⟨rfl, fun h => ?_, fun a ha hne => ?_⟩
    · simp [Deserialize, h]
    · simp [Deserialize, ha, hne]
  | MessagePack =>
    refine ⟨rfl, fun h => ?_, fun a ha hne => ?_⟩
    · simp [Deserialize, msgpackAllFieldsPresent, h]
    · by_cases hm : msgpackAllFieldsPresent false v = true
      · simp [Deserialize, hm, readIndexFilePayload, ha, hne]
      · simp [Deserialize, hm]

theorem claim_C6_witness :
    (⟨none, none, none, none, none, [], none, [], [], [], []⟩ :
        IndexPayload).version = none ∧
    Deserialize SerializeFormat.Json false "foo.cc"
        (some ⟨none, none, none, none, none, [], none, [], [], [], []⟩)
        (some 11) = none :=
  ⟨rfl,
    (claim_C6 SerializeFormat.Json "foo.cc"
      ⟨none, none, none, none, none, [], none, [], [], [], []⟩ 11).2.1 rfl⟩

/-- C4, counterexample: the claim says that with a positive report
frequency a message is emitted exactly when some counter is non-zero or
the clock is beyond `next_progress_output`; the code (import_pipeline.cc
line 70) instead returns early whenever some counter is non-zero, so at
`indexRequestCount = 1, now = 0, next_progress_output = 10` the claimed
condition holds but nothing is emitted. -/
theorem claim_C4_counterexample :
    ¬ (∀ (q : QueueSizes) (st : ImportPipelineStatus) (freq now : Int),
        0 < freq →
        ((EmitProgress freq now q st).2 = true ↔
          (progressAllZero q st.num_active_threads = false ∨
            st.next_progress_output < now))) :=
  fun h => absurd (h ⟨1, 0, 0, 0, 0⟩ ⟨0, 10⟩ 5 0 (by decide)) (by decide)

/-- C4, amended: with a positive report frequency, a progress message is
emitted exactly when every reported counter (the five queue sizes and
`num_active_threads`) is zero and the current wall-clock millisecond is at
least `next_progress_output`; on emission `next_progress_output` becomes
`now + frequency`, otherwise the status is unchanged. -/
theorem claim_C4 (q : QueueSizes) (st : ImportPipelineStatus) (freq now : Int)
    (h : 0 < freq) :
    EmitProgress freq now q st =
      if progressAllZero q st.num_active_threads = true ∧
          st.next_progress_output ≤ now
      then ({ st with next_progress_output := now + freq }, true)
      else (st, false) := by
  have hne : freq ≠ 0 := by omega
  unfold EmitProgress
  rw [if_pos hne]
  by_cases hz : progressAllZero q st.num_active_threads = true <;>
    by_cases hle : st.next_progress_output ≤ now <;>
      simp [hz, hle]

theorem claim_C4_witness :
    (0 : Int) < 5 ∧
    EmitProgress 5 10 ⟨0, 0, 0, 0, 0⟩ ⟨0, 0⟩ = (⟨0, 15⟩, true) :=
  ⟨by decide, (claim_C4 ⟨0, 0, 0, 0, 0⟩ ⟨0, 0⟩ 5 10 (by decide)).trans (by decide)⟩

/-- C8, counterexample: the claim says every execution of the worker-loop
body increments `num_active_threads` on entry for every configuration
value of `progressReportFrequencyMs`, but the `ActiveThread` constructor
returns before the increment when the frequency is negative
(import_pipeline.cc lines 38-39). -/
theorem claim_C8_counterexample :
    ¬ (∀ (freq : Int) (st : ImportPipelineStatus),
        (activeThreadEnter freq st).num_active_threads =
          st.num_active_threads + 1) :=
  fun h => absurd (h (-1) ⟨0, 0⟩) (by decide)

/-- C8, amended: when `progressReportFrequencyMs ≥ 0` the bracket
increments `num_active_threads` on entry and decrements it on exit; when
the frequency is negative both bracket halves leave the status untouched;
in every configuration the counter returns to its prior value after an
enter/exit pass. -/
theorem claim_C8 (freq now : Int) (q : QueueSizes) (st : ImportPipelineStatus) :
    (0 ≤ freq →
      (activeThreadEnter freq st).num_active_threads =
        st.num_active_threads + 1 ∧
      ((activeThreadExit freq now q st).1).num_active_threads =
        st.num_active_threads - 1) ∧
    (freq < 0 →
      activeThreadEnter freq st = st ∧ (activeThreadExit freq now q st).1 = st) ∧
    ((activeThreadExit freq now q (activeThreadEnter freq st)).1).num_active_threads
      = st.num_active_threads := by
  refine ⟨fun h0 => ?_, fun hlt => ?_, ?_⟩
  · have hn : ¬ freq < 0 := by omega
    constructor
    · simp [activeThreadEnter, hn]
    · simp [activeThreadExit, hn, EmitProgress_num_active_threads]
  · simp [activeThreadEnter, activeThreadExit, hlt]
  · by_cases hlt : freq < 0
    · simp [activeThreadEnter, activeThreadExit, hlt]
    · simp [activeThreadEnter, activeThreadExit, hlt,
        EmitProgress_num_active_threads]

theorem claim_C8_witness :
    (0 : Int) ≤ 5 ∧
    (activeThreadEnter 5 ⟨0, 0⟩).num_active_threads = 0 + 1 :=
  ⟨by decide, ((claim_C8 5 0 ⟨0, 0, 0, 0, 0⟩ ⟨0, 0⟩).1 (by decide)).1⟩

/-- C9: `ParseFile` runs the whole `DoParseFile` algorithm on the cached
index's `import_file` when a cached index exists for the requested
filename, and on the requested filename itself otherwise; the caller's
contents keep the requested filename either way. -/
theorem claim_C9 (w : World) (is_interactive : Bool) (filename : String)
    (args : List String) (contents : String) :
    (∀ (c : IndexFile) (w₁ : World), CacheTryLoad w filename = (some c, w₁) →
      ParseFile w is_interactive filename args contents =
        DoParseFile w₁ is_interactive c.import_file args ⟨filename, contents⟩) ∧
    (∀ w₁ : World, CacheTryLoad w filename = (none, w₁) →
      ParseFile w is_interactive filename args contents =
        DoParseFile w₁ is_interactive filename args ⟨filename, contents⟩) := by
  constructor
  · intro c w₁ h
    simp [ParseFile, h]
  · intro w₁ h
    simp [ParseFile, h]

/-- Witness data: a cached header index whose `import_file` names the
importing translation unit. -/
def witnessHeader9 : IndexFile :=
  { makeIndexFile "a.h" with import_file := "a.cc" }

/-- Witness data: a world whose cache manager holds `witnessHeader9`. -/
def witnessWorld9 : World :=
  { mtimes := fun _ => none
    readContent := fun _ => none
    diskCache := fun _ => none
    loadedCaches := [("a.h", witnessHeader9)]
    timestamps := []
    usedFiles := []
    importedDeps := []
    indexerIndex := fun _ _ _ => [] }

theorem claim_C9_witness :
    CacheTryLoad witnessWorld9 "a.h" = (some witnessHeader9, witnessWorld9) ∧
    ParseFile witnessWorld9 false "a.h" [] "" =
      DoParseFile witnessWorld9 false "a.cc" [] ⟨"a.h", ""⟩ :=
  ⟨rfl,
    (claim_C9 witnessWorld9 false "a.h" [] "").1 witnessHeader9 witnessWorld9 rfl⟩

theorem CacheTryLoad_usedFiles (w : World) (p : String) :
    ((CacheTryLoad w p).2).usedFiles = w.usedFiles := by
  unfold CacheTryLoad
  split
  · rfl
  · split <;> rfl

theorem GetLastCachedModificationTime_usedFiles (w : World) (p : String) :
    ((GetLastCachedModificationTime w p).2).usedFiles = w.usedFiles := by
  unfold GetLastCachedModificationTime
  split
  · rfl
  · split
    · rename_i f w₁ heq
      have h₁ : w₁.usedFiles = w.usedFiles := by
        have := CacheTryLoad_usedFiles w p
        rw [heq] at this
        exact this
      simpa using h₁
    · rename_i w₁ heq
      have := CacheTryLoad_usedFiles w p
      rw [heq] at this
      exact this

theorem GetLastCachedModificationTime_importedDeps (w : World) (d : List String)
    (p : String) :
    (GetLastCachedModificationTime { w with importedDeps := d } p).1 =
      (GetLastCachedModificationTime w p).1 := by
  unfold GetLastCachedModificationTime CacheTryLoad
  cases h₁ : lookupAssoc p w.timestamps with
  | some t => simp [h₁]
  | none =>
    cases h₂ : lookupAssoc p w.loadedCaches with
    | some f => simp [h₁, h₂]
    | none =>
      cases h₃ : w.diskCache p with
      | some f => simp [h₁, h₂, h₃]
      | none => simp [h₁, h₂, h₃]

/-- C1: for every path and either value of `is_dependency`, when
`GetLastModificationTime` yields a value equal to the timestamp manager's
cached modification time for the path and the request is not interactive,
`file_needs_parse` answers `DoesNotNeedParse` and leaves the
file-consumer claim set untouched (no `Reset`). -/
theorem claim_C1 (w : World) (path : String) (is_dependency : Bool) (t : Int)
    (hmtime : w.mtimes path = some t)
    (hcached : (GetLastCachedModificationTime w path).1 = some t) :
    (file_needs_parse false w path is_dependency).1 =
      FileParseQuery.DoesNotNeedParse ∧
    (file_needs_parse false w path is_dependency).2.usedFiles = w.usedFiles := by
  cases is_dependency with
  | false =>
    rcases hgl : GetLastCachedModificationTime w path with ⟨c, w₂⟩
    have hc : c = some t := by rw [hgl] at hcached; exact hcached
    subst hc
    have husd : w₂.usedFiles = w.usedFiles := by
      have := GetLastCachedModificationTime_usedFiles w path
      rw [hgl] at this
      exact this
    constructor <;> simp [file_needs_parse, hmtime, hgl, husd]
  | true =>
    by_cases hmem : path ∈ w.importedDeps
    · constructor <;> simp [file_needs_parse, TryMarkDependencyImported, hmem]
    · rcases hgl : GetLastCachedModificationTime
          { w with importedDeps := path :: w.importedDeps } path with ⟨c, w₂⟩
      have h₁ : c = some t := by
        have := GetLastCachedModificationTime_importedDeps w
          (path :: w.importedDeps) path
        rw [hgl] at this
        rw [← this] at hcached
        exact hcached
      subst h₁
      have husd : w₂.usedFiles = w.usedFiles := by
        have := GetLastCachedModificationTime_usedFiles
          { w with importedDeps := path :: w.importedDeps } path
        rw [hgl] at this
        simpa using this
      constructor <;>
        simp [file_needs_parse, TryMarkDependencyImported, hmem, hmtime, hgl, husd]

/-- Witness data: a world whose timestamp memo already matches the on-disk
modification time of `a.cc`. -/
def witnessWorld1 : World :=
  { mtimes := fun p => if p = "a.cc" then some 5 else none
    readContent := fun _ => none
    diskCache := fun _ => none
    loadedCaches := []
    timestamps := [("a.cc", 5)]
    usedFiles := []
    importedDeps := []
    indexerIndex := fun _ _ _ => [] }

theorem claim_C1_witness :
    witnessWorld1.mtimes "a.cc" = some 5 ∧
    (GetLastCachedModificationTime witnessWorld1 "a.cc").1 = some 5 ∧
    (file_needs_parse false witnessWorld1 "a.cc" true).1 =
      FileParseQuery.DoesNotNeedParse ∧
    (file_needs_parse false witnessWorld1 "a.cc" true).2.usedFiles =
      witnessWorld1.usedFiles :=
  ⟨rfl, rfl, (claim_C1 witnessWorld1 "a.cc" true 5 rfl rfl).1,
    (claim_C1 witnessWorld1 "a.cc" true 5 rfl rfl).2⟩

/-- C3: for an item dequeued from `do_id_map` with no previous index and
`load_previous` never attempted, if the (case-folded) current path is
already in `db.usr_to_file` the item goes to `load_previous_index` with
`load_previous := true` and `StartQueryDbImport` is not invoked;
otherwise `StartQueryDbImport(path)` is invoked, and a `false` answer
drops the item - nothing reaches `on_id_mapped` and no queue changes. -/
theorem claim_C3 (fold : String → String) (st : QDbState)
    (request : Index_DoIdMap)
    (hprev : request.previous = none) (hload : request.load_previous = false) :
    (fold request.current.path ∈ st.usrToFile →
      processDoIdMap fold st request =
        { st with loadPreviousIndexQueue :=
            st.loadPreviousIndexQueue ++ [{ request with load_previous := true }] } ∧
      (processDoIdMap fold st request).startCalls = st.startCalls) ∧
    (fold request.current.path ∉ st.usrToFile →
      (processDoIdMap fold st request).startCalls =
        st.startCalls ++ [request.current.path] ∧
      (request.current.path ∈ st.querydbInFlight →
        processDoIdMap fold st request =
          { st with startCalls := st.startCalls ++ [request.current.path] })) := by
  constructor
  · intro hmem
    constructor <;> simp [processDoIdMap, hprev, hload, hmem]
  · intro hmem
    constructor
    · by_cases hin : request.current.path ∈ st.querydbInFlight <;>
        simp [processDoIdMap, hprev, hload, hmem, StartQueryDbImport, hin]
    · intro hin
      simp [processDoIdMap, hprev, hload, hmem, StartQueryDbImport, hin]

/-- Witness data: a `do_id_map` item for `a.cc` with no previous state. -/
def witnessItem3 : Index_DoIdMap :=
  ⟨makeIndexFile "a.cc", none, false, false, true⟩

/-- Witness data: a query-db state that already knows `a.cc`. -/
def witnessQDb3 : QDbState := ⟨[], [], [], ["a.cc"], []⟩

theorem claim_C3_witness :
    witnessItem3.previous = none ∧ witnessItem3.load_previous = false ∧
    processDoIdMap id witnessQDb3 witnessItem3 =
      { witnessQDb3 with loadPreviousIndexQueue :=
          witnessQDb3.loadPreviousIndexQueue ++
            [{ witnessItem3 with load_previous := true }] } :=
  ⟨rfl, rfl,
    ((claim_C3 id witnessQDb3 witnessItem3 rfl rfl).1 (by decide)).1⟩

theorem runImports_nodup (ops : List ImportOp) (s : List String)
    (h : s.Nodup) : (runImports ops s).Nodup := by
  induction ops generalizing s with
  | nil => exact h
  | cons op ops ih =>
    cases op with
    | start p =>
      by_cases hp : p ∈ s
      · simpa [runImports, StartQueryDbImport, hp] using ih s h
      · simpa [runImports, StartQueryDbImport, hp] using
          ih (p :: s) (List.nodup_cons.mpr ⟨hp, h⟩)
    | done p =>
      simpa [runImports, DoneQueryDbImport] using ih (s.erase p) (h.erase p)

theorem foldlDoneEvents (files : List String) (s : List String)
    (evs : List QDbEvent) :
    (files.foldl
      (fun (acc : List String × List QDbEvent) p =>
        (DoneQueryDbImport acc.1 p, acc.2 ++ [QDbEvent.done p]))
      (s, evs)).2 = evs ++ files.map QDbEvent.done := by
  induction files generalizing s evs with
  | nil => simp
  | cons f fs ih => simp [ih]

/-- C7: the query-db import gate.  (1) From the empty in-flight set, any
sequence of `StartQueryDbImport` / `DoneQueryDbImport` operations leaves
each path in the in-flight set at most once, i.e. at most one `Start` is
un-matched by a `Done` at any instant.  (2) While a path is in flight,
`StartQueryDbImport` answers `false` and changes nothing.  (3) A path in
flight stays in flight across any operations that contain no `Done` for
it.  (4) The apply stage releases the gate once per file mentioned in the
update's `files_def_update`, and only after `ApplyIndexUpdate` for that
update. -/
theorem claim_C7 :
    (∀ (ops : List ImportOp) (p : String), (runImports ops []).count p ≤ 1) ∧
    (∀ (s : List String) (p : String), p ∈ s →
      StartQueryDbImport s p = (false, s)) ∧
    (∀ (ops : List ImportOp) (s : List String) (p : String), p ∈ s →
      (∀ op ∈ ops, op ≠ ImportOp.done p) → p ∈ runImports ops s) ∧
    (∀ (st : ApplyState) (u : IndexUpdate),
      (QueryDb_ApplyOnIndexed st u).2 =
        QDbEvent.applyUpdate u :: u.files_def_update.map QDbEvent.done ∧
      (QueryDb_ApplyOnIndexed st u).1.appliedUpdates =
        st.appliedUpdates ++ [u]) := by
  refine ⟨fun ops p => ?_, fun s p h => ?_, fun ops => ?_, fun st u => ?_⟩
  · exact List.nodup_iff_count_le_one.mp
      (runImports_nodup ops [] List.nodup_nil) p
  · simp [StartQueryDbImport, h]
  · induction ops with
    | nil => intro s p h _; exact h
    | cons op ops ih =>
      intro s p h hops
      cases op with
      | start q =>
        have htail : ∀ op ∈ ops, op ≠ ImportOp.done p :=
          fun o ho => hops o (List.mem_cons_of_mem _ ho)
        show p ∈ runImports ops (StartQueryDbImport s q).2
        by_cases hqs : q ∈ s
        · have h2 : (StartQueryDbImport s q).2 = s := by
            simp [StartQueryDbImport, hqs]
          rw [h2]
          exact ih s p h htail
        · have h2 : (StartQueryDbImport s q).2 = q :: s := by
            simp [StartQueryDbImport, hqs]
          rw [h2]
          exact ih (q :: s) p (List.mem_cons_of_mem _ h) htail
      | done q =>
        have hne : q ≠ p := by
          intro hqp
          exact hops (ImportOp.done q) (List.mem_cons_self _ _) (by rw [hqp])
        have hmem : p ∈ DoneQueryDbImport s q := by
          unfold DoneQueryDbImport
          exact (List.mem_erase_of_ne (fun hpq => hne hpq.symm)).mpr h
        have := ih _ p hmem (fun o ho => hops o (List.mem_cons_of_mem _ ho))
        simpa [runImports] using this
  · constructor
    · simpa [QueryDb_ApplyOnIndexed] using
        foldlDoneEvents u.files_def_update st.querydbInFlight
          [QDbEvent.applyUpdate u]
    · simp [QueryDb_ApplyOnIndexed]

theorem claim_C7_witness :
    ("a.cc" ∈ ["a.cc"]) ∧
    StartQueryDbImport ["a.cc"] "a.cc" = (false, ["a.cc"]) :=
  ⟨by decide, claim_C7.2.1 ["a.cc"] "a.cc" (by decide)⟩

theorem renameFundamentalType_preserves (tid : Nat) (t : IndexType) :
    (renameFundamentalType tid t).id = t.id ∧
      (renameFundamentalType tid t).usr = t.usr := by
  unfold renameFundamentalType
  split <;> exact ⟨rfl, rfl⟩

theorem foldl_addType_map_rename (tid : Nat) (l : List IndexType) (c : IdCache) :
    (l.map (renameFundamentalType tid)).foldl idCacheAddType c =
      l.foldl idCacheAddType c := by
  induction l generalizing c with
  | nil => rfl
  | cons t ts ih =>
    simp only [List.map_cons, List.foldl_cons]
    rw [show idCacheAddType c (renameFundamentalType tid t) = idCacheAddType c t by
      unfold idCacheAddType
      rw [(renameFundamentalType_preserves tid t).1,
        (renameFundamentalType_preserves tid t).2]]
    exact ih (idCacheAddType c t)

theorem buildIdCache_map_rename (path : String) (tid : Nat)
    (types : List IndexType) (funcs : List IndexFunc) (vars : List IndexVar) :
    buildIdCache path (types.map (renameFundamentalType tid)) funcs vars =
      buildIdCache path types funcs vars := by
  unfold buildIdCache
  dsimp only
  rw [foldl_addType_map_rename]

/-- C5: serialization round-trip.  For an index file whose id cache
satisfies the documented invariant (it is exactly the bidirectional map
rebuilt from its types, funcs and vars), deserializing the serialized
payload with the current format version yields a present `IndexFile`
equal to the file `Serialize` returned - `Serialize` mutates its C++
argument in place, so this is the value the caller's `f` holds after the
call, with the version stamped to `kCurrentVersion` and the id cache
rebuilt from the serialized types, funcs and vars.  Stated in production
(non-test) mode, where the test-mode projection is the identity. -/
theorem claim_C5 (format : SerializeFormat) (f : IndexFile)
    (hwf : f.id_cache = buildIdCache f.path f.types f.funcs f.vars) :
    Deserialize format false f.path (some (Serialize format false f).2)
      (some IndexFile.kCurrentVersion) = some (Serialize format false f).1 := by
  obtain ⟨p, ver, lmt, lang, imp, args, incs, deps, skip, tys, fns, vrs, cache⟩ := f
  simp only at hwf
  subst hwf
  cases format <;>
    cases h : lookupAssoc "" (buildIdCache p tys fns vrs).usr_to_type_id <;>
      simp [Serialize, ReflectMemberStartWriter, h, writeIndexFilePayload,
        Deserialize, msgpackAllFieldsPresent, readIndexFilePayload, makeIndexFile,
        restoreIdCache, buildIdCache_map_rename]

/-- Witness data: one type record for the round-trip witness. -/
def witnessType5 : IndexType := ⟨0, "c:@S@T", "T", "struct T"⟩

/-- Witness data: one function record for the round-trip witness. -/
def witnessFunc5 : IndexFunc := ⟨0, "c:@F@f#", "f"⟩

/-- Witness data: one variable record for the round-trip witness. -/
def witnessVar5 : IndexVar := ⟨0, "c:@v", "v"⟩

/-- Witness data: a populated index file whose id cache satisfies the
documented rebuild invariant. -/
def witnessFile5 : IndexFile :=
  { path := "a.cc"
    version := 3
    last_modification_time := 5
    language := 1
    import_file := "a.cc"
    args := ["-std=c++11"]
    includes := [⟨1, "/usr/include/h.h"⟩]
    dependencies := ["h.h"]
    skipped_by_preprocessor := [⟨2, 0, 3, 0⟩]
    types := [witnessType5]
    funcs := [witnessFunc5]
    vars := [witnessVar5]
    id_cache := buildIdCache "a.cc" [witnessType5] [witnessFunc5] [witnessVar5] }

theorem claim_C5_witness :
    witnessFile5.id_cache =
      buildIdCache witnessFile5.path witnessFile5.types witnessFile5.funcs
        witnessFile5.vars ∧
    Deserialize SerializeFormat.Json false witnessFile5.path
      (some (Serialize SerializeFormat.Json false witnessFile5).2)
      (some IndexFile.kCurrentVersion) =
      some (Serialize SerializeFormat.Json false witnessFile5).1 :=
  ⟨rfl, claim_C5 SerializeFormat.Json witnessFile5 rfl⟩

/-- The cache-hit dependency emission as the claim words it: walking the
dependencies in order, an item appears exactly when `Mark(d)` returns
true and `TryTakeOrLoad(d)` is non-null, carrying that index with
`write_to_disk = false`. -/
def specEmitDeps (is_interactive : Bool) :
    List String → World → List Index_DoIdMap × World
  | [], w => ([], w)
  | d :: ds, w =>
    let (newly, w₁) := FileConsumerMark w d
    if newly then
      match CacheTryTakeOrLoad w₁ d with
      | (some di, w₂) =>
        let (rest, w₃) := specEmitDeps is_interactive ds w₂
        (⟨di, none, false, is_interactive, false⟩ :: rest, w₃)
      | (none, w₂) => specEmitDeps is_interactive ds w₂
    else specEmitDeps is_interactive ds w₁

/-- The whole cache-hit emission as the claim words it: exactly one item
for the path built from `TakeOrLoad(path)` with `write_to_disk = false`,
followed by the dependency items of `specEmitDeps`, and nothing else. -/
def specCacheHitEmission (is_interactive : Bool) (w : World) (path : String)
    (deps : List String) : List Index_DoIdMap × World :=
  let (primary, w₁) := CacheTakeOrLoad w path
  let (rest, w₂) := specEmitDeps is_interactive deps w₁
  (⟨primary, none, false, is_interactive, false⟩ :: rest, w₂)

theorem loadDependencies_eq_specEmitDeps (is_interactive : Bool)
    (ds : List String) (w : World) (acc : List Index_DoIdMap) :
    loadDependencies is_interactive ds w acc =
      (acc ++ (specEmitDeps is_interactive ds w).1,
        (specEmitDeps is_interactive ds w).2) := by
  induction ds generalizing w acc with
  | nil => simp [loadDependencies, specEmitDeps]
  | cons d ds ih =>
    unfold loadDependencies specEmitDeps
    rcases hm : FileConsumerMark w d with ⟨newly, w₁⟩
    cases newly
    · simp [ih]
    · rcases ht : CacheTryTakeOrLoad w₁ d with ⟨odi, w₂⟩
      cases odi
      · simp [ht, ih]
      · simp [ht, ih]

/-- C2: when a previous index exists for the path and the computed
`needs_reparse` is false (non-interactive request, unchanged timestamp
for the path, and every dependency check answering `DoesNotNeedParse`),
`DoParseFile` emits exactly the cache-hit items - one `Index_DoIdMap`
from `TakeOrLoad(path)` with `write_to_disk = false`, plus one per
dependency exactly when `Mark` newly claims it and `TryTakeOrLoad` is
non-null - and the indexer is never invoked. -/
theorem claim_C2 (w : World) (path : String) (args : List String)
    (contents : FileContents) (prev : IndexFile) (w₁ w₂ w₃ : World)
    (hload : CacheTryLoad w path = (some prev, w₁))
    (hpath : file_needs_parse false w₁ path false =
      (FileParseQuery.DoesNotNeedParse, w₂))
    (hdeps : checkDependencies false prev.dependencies w₂ false = (false, w₃)) :
    DoParseFile w false path args contents =
      ((specCacheHitEmission false w₃ path prev.dependencies).1,
        (specCacheHitEmission false w₃ path prev.dependencies).2, false) := by
  unfold DoParseFile
  rw [hload]
  simp only [hpath]
  simp [hdeps, specCacheHitEmission, loadDependencies_eq_specEmitDeps]

/-- Witness data: a cached previous index for `a.cc` that depends on
`h.h`, with its timestamp recorded. -/
def witnessPrev2 : IndexFile :=
  { makeIndexFile "a.cc" with dependencies := ["h.h"], last_modification_time := 5 }

/-- Witness data: the persisted index for the dependency `h.h`. -/
def witnessHeader2 : IndexFile :=
  { makeIndexFile "h.h" with last_modification_time := 7 }

/-- Witness data: a world where both timestamps match the disk and the
previous index for `a.cc` is resident. -/
def witnessWorld2 : World :=
  { mtimes := fun p =>
      if p = "a.cc" then some 5 else if p = "h.h" then some 7 else none
    readContent := fun _ => none
    diskCache := fun p => if p = "h.h" then some witnessHeader2 else none
    loadedCaches := [("a.cc", witnessPrev2)]
    timestamps := [("a.cc", 5), ("h.h", 7)]
    usedFiles := []
    importedDeps := []
    indexerIndex := fun _ _ _ => [] }

/-- Witness data: `witnessWorld2` after the dependency loop has claimed
`h.h` through the import manager. -/
def witnessWorld2After : World :=
  { witnessWorld2 with importedDeps := ["h.h"] }

theorem claim_C2_witness :
    CacheTryLoad witnessWorld2 "a.cc" = (some witnessPrev2, witnessWorld2) ∧
    file_needs_parse false witnessWorld2 "a.cc" false =
      (FileParseQuery.DoesNotNeedParse, witnessWorld2) ∧
    checkDependencies false witnessPrev2.dependencies witnessWorld2 false =
      (false, witnessWorld2After) ∧
    DoParseFile witnessWorld2 false "a.cc" [] ⟨"a.cc", ""⟩ =
      ((specCacheHitEmission false witnessWorld2After "a.cc"
          witnessPrev2.dependencies).1,
        (specCacheHitEmission false witnessWorld2After "a.cc"
          witnessPrev2.dependencies).2, false) :=
  ⟨rfl, rfl, rfl,
    claim_C2 witnessWorld2 "a.cc" [] ⟨"a.cc", ""⟩ witnessPrev2 witnessWorld2
      witnessWorld2 witnessWorld2After rfl rfl rfl⟩
